import Mathlib

/-!
Shallow embedding of the guns-and-butter pipeline
(`guns_butter_plus_nextgen.py`, `guns_app.py`, `guns_butter_plus.py`).

Modelling decisions:
* A raw indicator series (the `get_indicator_data` output after dropna) is a list
  of (year, value) observations with rational values; missing cells are `none`.
* A pandas float cell is `Option ℚ` (`none` = NaN).  The Ratio column can hold
  infinities (pandas division by zero yields ±inf), so its cells are
  `Option Rv` where `Rv` is a finite rational or ±infinity and `none` is NaN.
* `df.interpolate(method='linear', ...)` ignores the index and treats values
  as equally spaced (positional linear interpolation); `limit_area="inside"`
  fills only NaNs strictly between two valid values, while the guns_app
  variant (`limit_direction="both"`, no limit_area) additionally fills leading
  and trailing NaNs with the nearest valid value (edge extension).
-/

namespace GB

abbrev Year := Int

/-- A non-NaN pandas float value in the Ratio column: a finite rational or
an infinity (pandas `x / 0` is `+inf` for `x > 0`, `-inf` for `x < 0`). -/
inductive Rv where
  | fin : ℚ → Rv
  | pinf : Rv
  | ninf : Rv
deriving DecidableEq, Repr

/-- Provenance tag of a row: the `Source` column of the nextgen variant. -/
inductive Src where
  | real : Src
  | interp : Src
deriving DecidableEq, Repr

/-- The metrics the UI can select (`Military`, `Butter`, `G/B Ratio`). -/
inductive Metric where
  | military : Metric
  | butter : Metric
  | ratio : Metric
deriving DecidableEq, Repr

/-- The five numeric columns of a country frame. -/
inductive Col where
  | military : Col
  | education : Col
  | health : Col
  | butter : Col
  | ratio : Col
deriving DecidableEq, Repr

/-- One raw indicator series as returned by `get_indicator_data`:
year-indexed observations (rows that survived `dropna`). -/
structure RawSeries where
  obs : List (Year × ℚ)
deriving DecidableEq, Repr

def RawSeries.lookup (s : RawSeries) (y : Year) : Option ℚ :=
  (s.obs.find? (fun p => p.1 == y)).map (fun p => p.2)

def RawSeries.years (s : RawSeries) : List Year :=
  s.obs.map (fun p => p.1)

def RawSeries.isEmpty (s : RawSeries) : Bool :=
  s.obs.isEmpty

/-- Cell-wise addition (`df["Education"] + df["Health"]`): NaN-propagating. -/
def addCell : Option ℚ → Option ℚ → Option ℚ
  | some a, some b => some (a + b)
  | _, _ => none

/-- Cell-wise division (`df["Military"] / df["Butter"]`), IEEE style:
NaN if either operand is NaN, ±inf on division of a nonzero by zero,
NaN on 0/0. -/
def divCell : Option ℚ → Option ℚ → Option Rv
  | some a, some b =>
      if b ≠ 0 then some (Rv.fin (a / b))
      else if 0 < a then some Rv.pinf
      else if a < 0 then some Rv.ninf
      else none
  | _, _ => none

/-- One row of a country frame (year index plus the five numeric columns
and the `Source` column of the nextgen variant). -/
structure Row where
  year : Year
  military : Option ℚ
  education : Option ℚ
  health : Option ℚ
  butter : Option ℚ
  ratio : Option Rv
  source : Src
deriving DecidableEq, Repr

instance : Inhabited Row :=
  ⟨{ year := 0, military := none, education := none, health := none,
     butter := none, ratio := none, source := Src.real }⟩

/-- The cell of row `r` in column `c`, with finite rationals embedded
into `Rv` so all five columns share one value type (`none` = NaN). -/
def colCellR (r : Row) : Col → Option Rv
  | Col.military => r.military.map Rv.fin
  | Col.education => r.education.map Rv.fin
  | Col.health => r.health.map Rv.fin
  | Col.butter => r.butter.map Rv.fin
  | Col.ratio => r.ratio

/-- Insert a year into a strictly sorted list, keeping it sorted and
duplicate-free (models the sorted, deduplicated union index). -/
def insertYear (y : Year) : List Year → List Year
  | [] => [y]
  | z :: zs =>
      if y < z then y :: z :: zs
      else if y = z then z :: zs
      else z :: insertYear y zs

/-- Models `mil.index.union(edu.index).union(hlth.index)`: the sorted,
deduplicated union of the three series' years. -/
def unionYears (mil edu hlth : RawSeries) : List Year :=
  (mil.years ++ edu.years ++ hlth.years).foldr insertYear []

/-- The aligned row at year `y`: the three indicator cells are looked up in
their raw series, `Butter` and `Ratio` are derived column-wise, and the
`Source` column is initialised to `"Real"`. -/
def mkRow (mil edu hlth : RawSeries) (y : Year) : Row :=
  { year := y, military := mil.lookup y, education := edu.lookup y,
    health := hlth.lookup y,
    butter := addCell (edu.lookup y) (hlth.lookup y),
    ratio := divCell (mil.lookup y) (addCell (edu.lookup y) (hlth.lookup y)),
    source := Src.real }

/-- The aligned country frame (lines 47-56 of the nextgen `build_metrics`):
one row per year of the union index, in ascending order. -/
def alignRows (mil edu hlth : RawSeries) : List Row :=
  (unionYears mil edu hlth).map (mkRow mil edu hlth)

/-- Position of the nearest valid (non-NaN) cell strictly before `i`. -/
def prevSome (v : List (Option α)) (i : Nat) : Option (Nat × α) :=
  ((List.range i).filterMap
    (fun j => (v.getD j none).map (fun a => (j, a)))).getLast?

/-- Position of the nearest valid (non-NaN) cell strictly after `i`. -/
def nextSome (v : List (Option α)) (i : Nat) : Option (Nat × α) :=
  ((List.range v.length).filterMap
    (fun j => if i < j then (v.getD j none).map (fun a => (j, a)) else none)).head?

/-- Positional linear interpolation between rationals `a` (at offset 0) and
`b` (at offset `len`), evaluated at offset `d`. -/
def mixQ (a b : ℚ) (d len : ℚ) : Option ℚ :=
  some (a + (b - a) * d / len)

/-- Positional linear interpolation on Ratio cells.  Interpolation only calls
this with `0 < d < len`; infinite endpoints follow IEEE evaluation of
`a + (b - a) * (d / len)` (`none` where that evaluation is NaN). -/
def mixR (a b : Rv) (d len : ℚ) : Option Rv :=
  let t := d / len
  match a, b with
  | Rv.fin x, Rv.fin y => some (Rv.fin (x + (y - x) * t))
  | Rv.fin _, Rv.pinf => if 0 < t then some Rv.pinf else none
  | Rv.fin _, Rv.ninf => if 0 < t then some Rv.ninf else none
  | Rv.pinf, _ => none
  | Rv.ninf, _ => none

/-- Models `Series.interpolate(method='linear', limit_area="inside",
limit_direction="both")`: valid cells are kept; a NaN cell is filled only
when it has valid cells on both sides (no extrapolation). -/
def interpCol (mix : α → α → ℚ → ℚ → Option α) (v : List (Option α)) :
    List (Option α) :=
  (List.range v.length).map (fun i =>
    match v.getD i none with
    | some x => some x
    | none =>
        match prevSome v i, nextSome v i with
        | some (j, a), some (k, b) =>
            mix a b ((i : ℚ) - (j : ℚ)) ((k : ℚ) - (j : ℚ))
        | _, _ => none)

/-- Models `Series.interpolate(method='linear', limit_direction="both")` with no
`limit_area` (the guns_app variant): interior NaNs are interpolated and
leading/trailing NaNs are filled with the nearest valid value. -/
def interpColBoth (mix : α → α → ℚ → ℚ → Option α) (v : List (Option α)) :
    List (Option α) :=
  (List.range v.length).map (fun i =>
    match v.getD i none with
    | some x => some x
    | none =>
        match prevSome v i, nextSome v i with
        | some (j, a), some (k, b) =>
            mix a b ((i : ℚ) - (j : ℚ)) ((k : ℚ) - (j : ℚ))
        | some (_, a), none => some a
        | none, some (_, b) => some b
        | none, none => none)

/-- Row `i` of the interpolated frame (nextgen lines 57-62): each of the five
columns is interpolated inside-only; the `Source` cell becomes
`"Interpolated"` exactly when some column was NaN before and valid after
(the per-column mask loop, starting from the all-`"Real"` column). -/
def interpRowAt (rows : List Row) (i : Nat) : Row :=
  let r := rows.getD i default
  let m := (interpCol mixQ (rows.map (fun x => x.military))).getD i none
  let e := (interpCol mixQ (rows.map (fun x => x.education))).getD i none
  let h := (interpCol mixQ (rows.map (fun x => x.health))).getD i none
  let b := (interpCol mixQ (rows.map (fun x => x.butter))).getD i none
  let ra := (interpCol mixR (rows.map (fun x => x.ratio))).getD i none
  let filled := (r.military.isNone && m.isSome) || (r.education.isNone && e.isSome) ||
      (r.health.isNone && h.isSome) || (r.butter.isNone && b.isSome) ||
      (r.ratio.isNone && ra.isSome)
  { year := r.year, military := m, education := e, health := h, butter := b,
    ratio := ra, source := if filled then Src.interp else Src.real }

def interpolateRows (rows : List Row) : List Row :=
  (List.range rows.length).map (interpRowAt rows)

/-- Row `i` of the guns_app interpolated frame (line 64): every column is
interpolated with edge extension; guns_app has no `Source` column, so the
tag is passed through unchanged. -/
def interpRowAtBoth (rows : List Row) (i : Nat) : Row :=
  let r := rows.getD i default
  let m := (interpColBoth mixQ (rows.map (fun x => x.military))).getD i none
  let e := (interpColBoth mixQ (rows.map (fun x => x.education))).getD i none
  let h := (interpColBoth mixQ (rows.map (fun x => x.health))).getD i none
  let b := (interpColBoth mixQ (rows.map (fun x => x.butter))).getD i none
  let ra := (interpColBoth mixR (rows.map (fun x => x.ratio))).getD i none
  { year := r.year, military := m, education := e, health := h, butter := b,
    ratio := ra, source := r.source }

def interpolateRowsBoth (rows : List Row) : List Row :=
  (List.range rows.length).map (interpRowAtBoth rows)

/-- The `build_metrics` function of `guns_butter_plus_nextgen.py` (lines 41-63): `None`
when any of the three series is empty; otherwise the aligned frame,
interpolated (with provenance tagging) when the flag is set. -/
def build_metrics (mil edu hlth : RawSeries) (allowInterpolation : Bool) :
    Option (List Row) :=
  if mil.isEmpty || edu.isEmpty || hlth.isEmpty then none
  else if allowInterpolation then some (interpolateRows (alignRows mil edu hlth))
  else some (alignRows mil edu hlth)

/-- The `build_country_metrics` function of `guns_app.py` (lines 50-65): always
interpolates, with `limit_direction="both"` and no `limit_area`. -/
def build_country_metrics (mil edu hlth : RawSeries) : Option (List Row) :=
  if mil.isEmpty || edu.isEmpty || hlth.isEmpty then none
  else some (interpolateRowsBoth (alignRows mil edu hlth))

/-- Models `df[(df.index >= lo) & (df.index <= hi)]`: the inclusive year window. -/
def filterWindow (rows : List Row) (lo hi : Year) : List Row :=
  rows.filter (fun r => decide (lo ≤ r.year ∧ r.year ≤ hi))

/-- One row of the terminal tidy dataset. -/
structure LongRecord where
  year : Year
  country : String
  metric : Metric
  value : Option Rv
  source : Src
deriving DecidableEq, Repr

def metricValue (r : Row) : Metric → Option Rv
  | Metric.military => r.military.map Rv.fin
  | Metric.butter => r.butter.map Rv.fin
  | Metric.ratio => r.ratio

/-- The per-country metric fan-out (nextgen lines 133-140): for each selected
metric, one record per remaining frame row, carrying the row's tag. -/
def reshapeCountry (name : String) (rows : List Row) (metrics : List Metric) :
    List LongRecord :=
  metrics.flatMap (fun m => rows.map (fun r =>
    { year := r.year, country := name, metric := m,
      value := metricValue r m, source := r.source }))

structure CountryInput where
  name : String
  mil : RawSeries
  edu : RawSeries
  hlth : RawSeries
deriving DecidableEq, Repr

/-- The per-country body of the nextgen processing loop (lines 125-140):
skip on `None`, window-filter, optionally drop interpolated rows, fan out. -/
def processCountry (c : CountryInput) (allowInterpolation : Bool) (lo hi : Year)
    (showOnlyReal : Bool) (metrics : List Metric) : List LongRecord :=
  match build_metrics c.mil c.edu c.hlth allowInterpolation with
  | none => []
  | some rows =>
      let rows1 := filterWindow rows lo hi
      let rows2 := if showOnlyReal then rows1.filter (fun r => r.source == Src.real)
        else rows1
      reshapeCountry c.name rows2 metrics

/-- The whole nextgen processing loop: the terminal long-form dataset. -/
def processCountries (cs : List CountryInput) (allowInterpolation : Bool)
    (lo hi : Year) (showOnlyReal : Bool) (metrics : List Metric) :
    List LongRecord :=
  cs.flatMap (fun c => processCountry c allowInterpolation lo hi showOnlyReal metrics)

/-! ### Positional helper lemmas -/

theorem rangeMap_getD {β : Type} (f : Nat → β) (n i : Nat) (d : β) (h : i < n) :
    ((List.range n).map f).getD i d = f i := by
  rw [List.getD_eq_getElem _ _ (by simpa using h)]
  simp

theorem map_getD {α β : Type} (f : α → β) (l : List α) (i : Nat) (d : β) (d' : α)
    (h : i < l.length) : (l.map f).getD i d = f (l.getD i d') := by
  rw [List.getD_eq_getElem _ _ (by simpa using h), List.getD_eq_getElem _ _ h]
  simp

/-! ### The union index is sorted and duplicate-free -/

theorem mem_insertYear (y a : Year) (l : List Year) :
    a ∈ insertYear y l ↔ a = y ∨ a ∈ l := by
  induction l with
  | nil => simp [insertYear]
  | cons z zs ih =>
      simp only [insertYear]
      split
      · simp [List.mem_cons]
      · split
        · next hyz =>
            subst hyz
            simp [List.mem_cons]
        · simp [List.mem_cons, ih]
          tauto

theorem sorted_insertYear (y : Year) (l : List Year) (h : l.Sorted (· < ·)) :
    (insertYear y l).Sorted (· < ·) := by
  induction l with
  | nil => simp [insertYear]
  | cons z zs ih =>
      rw [List.sorted_cons] at h
      obtain ⟨hz, hzs⟩ := h
      simp only [insertYear]
      split
      · next hlt =>
          refine List.sorted_cons.mpr ⟨?_, List.sorted_cons.mpr ⟨hz, hzs⟩⟩
          intro b hb
          rcases List.mem_cons.mp hb with rfl | hb
          · exact hlt
          · exact lt_trans hlt (hz b hb)
      · split
        · exact List.sorted_cons.mpr ⟨hz, hzs⟩
        · next hnlt hne =>
            refine List.sorted_cons.mpr ⟨?_, ih hzs⟩
            intro b hb
            rcases (mem_insertYear y b zs).mp hb with rfl | hb
            · exact lt_of_le_of_ne (not_lt.mp hnlt) (fun hq => hne hq.symm)
            · exact hz b hb

theorem sorted_foldr_insertYear (l : List Year) :
    (l.foldr insertYear []).Sorted (· < ·) := by
  induction l with
  | nil => simp
  | cons a l ih => exact sorted_insertYear a _ ih

theorem mem_foldr_insertYear (l : List Year) (y : Year) :
    y ∈ l.foldr insertYear [] ↔ y ∈ l := by
  induction l with
  | nil => simp
  | cons a l ih => simp [List.foldr, mem_insertYear, ih]

theorem sorted_unionYears (mil edu hlth : RawSeries) :
    (unionYears mil edu hlth).Sorted (· < ·) :=
  sorted_foldr_insertYear _

theorem mem_unionYears (mil edu hlth : RawSeries) (y : Year) :
    y ∈ unionYears mil edu hlth ↔
      y ∈ mil.years ∨ y ∈ edu.years ∨ y ∈ hlth.years := by
  unfold unionYears
  rw [mem_foldr_insertYear]
  simp [or_assoc]

theorem nodup_unionYears (mil edu hlth : RawSeries) :
    (unionYears mil edu hlth).Nodup :=
  (sorted_unionYears mil edu hlth).imp ne_of_lt

/-! ### Frame access lemmas -/

theorem length_alignRows (mil edu hlth : RawSeries) :
    (alignRows mil edu hlth).length = (unionYears mil edu hlth).length := by
  simp [alignRows]

theorem alignRows_getD (mil edu hlth : RawSeries) (i : Nat)
    (hi : i < (unionYears mil edu hlth).length) :
    (alignRows mil edu hlth).getD i default =
      mkRow mil edu hlth ((unionYears mil edu hlth).getD i 0) := by
  unfold alignRows
  exact map_getD _ _ i default 0 hi

theorem length_interpolateRows (rows : List Row) :
    (interpolateRows rows).length = rows.length := by
  simp [interpolateRows]

theorem interpolateRows_getD (rows : List Row) (i : Nat) (hi : i < rows.length) :
    (interpolateRows rows).getD i default = interpRowAt rows i := by
  unfold interpolateRows
  exact rangeMap_getD _ _ i default hi

theorem length_interpolateRowsBoth (rows : List Row) :
    (interpolateRowsBoth rows).length = rows.length := by
  simp [interpolateRowsBoth]

theorem interpolateRowsBoth_getD (rows : List Row) (i : Nat)
    (hi : i < rows.length) :
    (interpolateRowsBoth rows).getD i default = interpRowAtBoth rows i := by
  unfold interpolateRowsBoth
  exact rangeMap_getD _ _ i default hi

theorem build_metrics_some {mil edu hlth : RawSeries} {flag : Bool}
    {rows : List Row} (hb : build_metrics mil edu hlth flag = some rows) :
    rows = (if flag then interpolateRows (alignRows mil edu hlth)
            else alignRows mil edu hlth) := by
  unfold build_metrics at hb
  split at hb
  · cases hb
  · cases flag with
    | true => simp only [if_true] at hb ⊢; exact (Option.some_inj.mp hb).symm
    | false => simp only [Bool.false_eq_true, if_false] at hb ⊢
               exact (Option.some_inj.mp hb).symm

theorem build_country_metrics_some {mil edu hlth : RawSeries}
    {rows : List Row} (hb : build_country_metrics mil edu hlth = some rows) :
    rows = interpolateRowsBoth (alignRows mil edu hlth) := by
  unfold build_country_metrics at hb
  split at hb
  · cases hb
  · exact (Option.some_inj.mp hb).symm

/-! ### Interpolation column lemmas -/

theorem length_interpCol {α : Type} (mix : α → α → ℚ → ℚ → Option α)
    (v : List (Option α)) : (interpCol mix v).length = v.length := by
  simp [interpCol]

theorem interpCol_getD_some {α : Type} (mix : α → α → ℚ → ℚ → Option α)
    (v : List (Option α)) (i : Nat) (x : α) (hi : i < v.length)
    (hv : v.getD i none = some x) :
    (interpCol mix v).getD i none = some x := by
  unfold interpCol
  rw [rangeMap_getD _ _ _ _ hi]
  rw [hv]

theorem interpColBoth_getD_some {α : Type} (mix : α → α → ℚ → ℚ → Option α)
    (v : List (Option α)) (i : Nat) (x : α) (hi : i < v.length)
    (hv : v.getD i none = some x) :
    (interpColBoth mix v).getD i none = some x := by
  unfold interpColBoth
  rw [rangeMap_getD _ _ _ _ hi]
  rw [hv]

theorem prevSome_eq_none {α : Type} (v : List (Option α)) (i : Nat)
    (h : ∀ j, j < i → v.getD j none = none) : prevSome v i = none := by
  unfold prevSome
  have hnil : (List.range i).filterMap
      (fun j => (v.getD j none).map (fun a => (j, a))) = [] := by
    rw [List.filterMap_eq_nil_iff]
    intro j hj
    rw [h j (List.mem_range.mp hj)]
    rfl
  rw [hnil]
  rfl

theorem nextSome_eq_none {α : Type} (v : List (Option α)) (i : Nat)
    (h : ∀ j, i < j → j < v.length → v.getD j none = none) :
    nextSome v i = none := by
  unfold nextSome
  have hnil : (List.range v.length).filterMap
      (fun j => if i < j then (v.getD j none).map (fun a => (j, a)) else none) = [] := by
    rw [List.filterMap_eq_nil_iff]
    intro j hj
    by_cases hij : i < j
    · rw [if_pos hij, h j hij (List.mem_range.mp hj)]
      rfl
    · rw [if_neg hij]
  rw [hnil]
  rfl

theorem interpCol_getD_none {α : Type} (mix : α → α → ℚ → ℚ → Option α)
    (v : List (Option α)) (i : Nat) (hi : i < v.length)
    (h : (∀ j, j ≤ i → v.getD j none = none) ∨
         (∀ j, i ≤ j → j < v.length → v.getD j none = none)) :
    (interpCol mix v).getD i none = none := by
  have hvi : v.getD i none = none := by
    rcases h with h | h
    · exact h i le_rfl
    · exact h i le_rfl hi
  unfold interpCol
  rw [rangeMap_getD _ _ _ _ hi]
  simp only [hvi]
  rcases h with h | h
  · rw [prevSome_eq_none v i (fun j hj => h j hj.le)]
  · rw [nextSome_eq_none v i (fun j hj hjl => h j hj.le hjl)]
    cases hps : prevSome v i <;> rfl

/-- Boundary lemma lifted to a column projected out of a row list. -/
theorem interp_col_none {α : Type} (mix : α → α → ℚ → ℚ → Option α)
    (rows : List Row) (i : Nat) (hi : i < rows.length) (f : Row → Option α)
    (h : (∀ j, j ≤ i → f (rows.getD j default) = none) ∨
         (∀ j, i ≤ j → j < rows.length → f (rows.getD j default) = none)) :
    (interpCol mix (rows.map f)).getD i none = none := by
  apply interpCol_getD_none
  · simpa using hi
  · rcases h with h | h
    · left
      intro j hj
      rw [map_getD f rows j none default (lt_of_le_of_lt hj hi)]
      exact h j hj
    · right
      intro j hij hjl
      have hjl2 : j < rows.length := by simpa using hjl
      rw [map_getD f rows j none default hjl2]
      exact h j hij hjl2

/-! ### Field views of the interpolated row -/

theorem interpRowAt_year (rows : List Row) (i : Nat) :
    (interpRowAt rows i).year = (rows.getD i default).year := rfl

theorem interpRowAt_military (rows : List Row) (i : Nat) :
    (interpRowAt rows i).military =
      (interpCol mixQ (rows.map (fun x => x.military))).getD i none := rfl

theorem interpRowAt_education (rows : List Row) (i : Nat) :
    (interpRowAt rows i).education =
      (interpCol mixQ (rows.map (fun x => x.education))).getD i none := rfl

theorem interpRowAt_health (rows : List Row) (i : Nat) :
    (interpRowAt rows i).health =
      (interpCol mixQ (rows.map (fun x => x.health))).getD i none := rfl

theorem interpRowAt_butter (rows : List Row) (i : Nat) :
    (interpRowAt rows i).butter =
      (interpCol mixQ (rows.map (fun x => x.butter))).getD i none := rfl

theorem interpRowAt_ratio (rows : List Row) (i : Nat) :
    (interpRowAt rows i).ratio =
      (interpCol mixR (rows.map (fun x => x.ratio))).getD i none := rfl

/-! ### Position-to-year translation on the sorted index -/

theorem sorted_getD_le {l : List Year} (hs : l.Sorted (· < ·)) {i j : Nat}
    (hij : i ≤ j) (hj : j < l.length) (d : Year) : l.getD i d ≤ l.getD j d := by
  rcases eq_or_lt_of_le hij with rfl | hlt
  · exact le_rfl
  · have hi : i < l.length := lt_trans hlt hj
    rw [List.getD_eq_getElem _ _ hi, List.getD_eq_getElem _ _ hj]
    exact le_of_lt (List.pairwise_iff_getElem.mp hs i j hi hj hlt)

theorem alignRows_year_getD (mil edu hlth : RawSeries) (i : Nat)
    (hi : i < (unionYears mil edu hlth).length) :
    ((alignRows mil edu hlth).getD i default).year =
      (unionYears mil edu hlth).getD i 0 := by
  rw [alignRows_getD mil edu hlth i hi]
  rfl

/-! ### Claim theorems -/

/-- C8: filtering by the same inclusive year window `[lo, hi]` (with
`lo ≤ hi`) twice yields the same frame as filtering once. -/
theorem window_filter_idempotent (rows : List Row) (lo hi : Year) (h : lo ≤ hi) :
    filterWindow (filterWindow rows lo hi) lo hi = filterWindow rows lo hi := by
  unfold filterWindow
  rw [List.filter_filter]
  simp

theorem window_filter_idempotent_witness :
    filterWindow (filterWindow
        [{ year := 2000, military := some 1, education := some 1, health := some 1,
           butter := some 2, ratio := some (Rv.fin (1/2)), source := Src.real }]
        1999 2001) 1999 2001 =
      filterWindow
        [{ year := 2000, military := some 1, education := some 1, health := some 1,
           butter := some 2, ratio := some (Rv.fin (1/2)), source := Src.real }]
        1999 2001 :=
  window_filter_idempotent _ 1999 2001 (by decide)

/-- C10: with an inverted window (`hi < lo`) the filter is still total and
returns the empty frame rather than failing. -/
theorem window_filter_inverted_empty (rows : List Row) (lo hi : Year)
    (h : hi < lo) : filterWindow rows lo hi = [] := by
  unfold filterWindow
  rw [List.filter_eq_nil_iff]
  intro r hr
  simp only [decide_eq_true_eq, not_and, not_le]
  intro h2
  exact lt_of_lt_of_le h h2

set_option maxRecDepth 8000 in
/-- C3 counterexample: for the country with Military = {2000: 1},
Education = {2000: 0}, Health = {2000: 0}, Butter at 2000 is 0 and the
computed Ratio is +infinity — a number, not NaN, refuting the claim that a
zero Butter always yields a not-a-number Ratio. -/
theorem ratio_degenerate_counterexample :
    ((build_metrics ⟨[((2000 : Year), (1 : ℚ))]⟩ ⟨[(2000, 0)]⟩ ⟨[(2000, 0)]⟩
        false).getD []).map (fun r => (r.butter, r.ratio)) =
      [(some 0, some Rv.pinf)] := by with_unfolding_all rfl

/-- C3 (amended): at the stage where Ratio is computed, a year with absent
Butter has NaN Ratio; a year with zero Butter has +infinity, -infinity or
NaN Ratio (never any finite number, in particular never zero), and the
division is total — it never raises. -/
theorem ratio_degenerate (mil edu hlth : RawSeries) (rows : List Row)
    (hb : build_metrics mil edu hlth false = some rows) (r : Row)
    (hr : r ∈ rows) :
    (r.butter = none → r.ratio = none) ∧
    (r.butter = some 0 → ∀ q : ℚ, r.ratio ≠ some (Rv.fin q)) := by
  have hrows := build_metrics_some hb
  simp only [Bool.false_eq_true, if_false] at hrows
  subst hrows
  obtain ⟨y, hy, rfl⟩ := List.mem_map.mp hr
  constructor
  · intro h0
    have hbut : addCell (edu.lookup y) (hlth.lookup y) = none := h0
    show divCell (mil.lookup y) (addCell (edu.lookup y) (hlth.lookup y)) = none
    rw [hbut]
    cases mil.lookup y <;> rfl
  · intro h0 q
    have hbut : addCell (edu.lookup y) (hlth.lookup y) = some 0 := h0
    show divCell (mil.lookup y) (addCell (edu.lookup y) (hlth.lookup y)) ≠
      some (Rv.fin q)
    rw [hbut]
    cases hm : mil.lookup y with
    | none => simp [divCell]
    | some a =>
        simp only [divCell]
        rw [if_neg (by simp)]
        by_cases ha : 0 < a
        · rw [if_pos ha]
          simp
        · rw [if_neg ha]
          by_cases ha2 : a < 0
          · rw [if_pos ha2]
            simp
          · rw [if_neg ha2]
            simp

set_option maxRecDepth 8000 in
theorem ratio_degenerate_witness :
    (((⟨2000, none, some 2, some (-2), some 0, none, Src.real⟩ : Row)).butter =
        none →
      ((⟨2000, none, some 2, some (-2), some 0, none, Src.real⟩ : Row)).ratio =
        none) ∧
    (((⟨2000, none, some 2, some (-2), some 0, none, Src.real⟩ : Row)).butter =
        some 0 →
      ∀ q : ℚ,
        ((⟨2000, none, some 2, some (-2), some 0, none, Src.real⟩ : Row)).ratio ≠
          some (Rv.fin q)) :=
  ratio_degenerate ⟨[(2001, 1)]⟩ ⟨[(2000, 2)]⟩ ⟨[(2000, -2)]⟩
    [⟨2000, none, some 2, some (-2), some 0, none, Src.real⟩,
     ⟨2001, some 1, none, none, none, none, Src.real⟩]
    (by with_unfolding_all rfl) _ (by with_unfolding_all decide)

/-- C1: at every year where all three indicators are observed (with values
`m`, `e`, `h` and `e + h ≠ 0`), the built frame's Ratio is exactly
`m / (e + h)` — in every variant, whatever the interpolation flag. -/
theorem ratio_formula (mil edu hlth : RawSeries) (y : Year) (m e h : ℚ)
    (hm : mil.lookup y = some m) (he : edu.lookup y = some e)
    (hh : hlth.lookup y = some h) (hbz : e + h ≠ 0) :
    (∀ flag rows, build_metrics mil edu hlth flag = some rows →
      ∀ r ∈ rows, r.year = y → r.ratio = some (Rv.fin (m / (e + h)))) ∧
    (∀ rows, build_country_metrics mil edu hlth = some rows →
      ∀ r ∈ rows, r.year = y → r.ratio = some (Rv.fin (m / (e + h)))) := by
  have hmk : (mkRow mil edu hlth y).ratio = some (Rv.fin (m / (e + h))) := by
    show divCell (mil.lookup y) (addCell (edu.lookup y) (hlth.lookup y)) =
      some (Rv.fin (m / (e + h)))
    rw [hm, he, hh]
    show (if (e + h) ≠ 0 then some (Rv.fin (m / (e + h)))
          else if 0 < m then some Rv.pinf
          else if m < 0 then some Rv.ninf
          else none) = some (Rv.fin (m / (e + h)))
    rw [if_pos hbz]
  have haligned : ∀ r ∈ alignRows mil edu hlth, r.year = y →
      r.ratio = some (Rv.fin (m / (e + h))) := by
    intro r hr hry
    obtain ⟨y2, _, rfl⟩ := List.mem_map.mp hr
    have hy2 : y2 = y := hry
    subst hy2
    exact hmk
  have hAyd : ∀ i, i < (alignRows mil edu hlth).length →
      ((alignRows mil edu hlth).getD i default).year = y →
      (alignRows mil edu hlth).getD i default = mkRow mil edu hlth y := by
    intro i hi hy2
    have hiu : i < (unionYears mil edu hlth).length := by
      rw [← length_alignRows mil edu hlth]
      exact hi
    rw [alignRows_getD mil edu hlth i hiu] at hy2 ⊢
    have hu : (unionYears mil edu hlth).getD i 0 = y := hy2
    rw [hu]
  constructor
  · intro flag rows hb r hr hry
    have hrows := build_metrics_some hb
    cases flag with
    | false =>
        simp only [Bool.false_eq_true, if_false] at hrows
        subst hrows
        exact haligned r hr hry
    | true =>
        simp only [if_true] at hrows
        subst hrows
        unfold interpolateRows at hr
        obtain ⟨i, hi, rfl⟩ := List.mem_map.mp hr
        have hi2 : i < (alignRows mil edu hlth).length := List.mem_range.mp hi
        have hyd : ((alignRows mil edu hlth).getD i default).year = y := hry
        have hmkeq := hAyd i hi2 hyd
        show (interpCol mixR ((alignRows mil edu hlth).map (fun x => x.ratio))).getD
            i none = some (Rv.fin (m / (e + h)))
        apply interpCol_getD_some
        · simpa using hi2
        · rw [map_getD (fun x => x.ratio) _ i none default hi2, hmkeq, hmk]
  · intro rows hb r hr hry
    have hrows := build_country_metrics_some hb
    subst hrows
    unfold interpolateRowsBoth at hr
    obtain ⟨i, hi, rfl⟩ := List.mem_map.mp hr
    have hi2 : i < (alignRows mil edu hlth).length := List.mem_range.mp hi
    have hyd : ((alignRows mil edu hlth).getD i default).year = y := hry
    have hmkeq := hAyd i hi2 hyd
    show (interpColBoth mixR ((alignRows mil edu hlth).map (fun x => x.ratio))).getD
        i none = some (Rv.fin (m / (e + h)))
    apply interpColBoth_getD_some
    · simpa using hi2
    · rw [map_getD (fun x => x.ratio) _ i none default hi2, hmkeq, hmk]

set_option maxRecDepth 8000 in
theorem ratio_formula_witness :
    (⟨2000, some 3, some 4, some 1, some 5, some (Rv.fin (3 / (4 + 1))),
        Src.real⟩ : Row).ratio = some (Rv.fin (3 / (4 + 1))) :=
  (ratio_formula ⟨[(2000, 3)]⟩ ⟨[(2000, 4)]⟩ ⟨[(2000, 1)]⟩ 2000 3 4 1
      (by with_unfolding_all rfl) (by with_unfolding_all rfl)
      (by with_unfolding_all rfl) (by norm_num)).1 false
    [⟨2000, some 3, some 4, some 1, some 5, some (Rv.fin (3 / (4 + 1))),
        Src.real⟩]
    (by with_unfolding_all rfl) _ (by with_unfolding_all decide)
    (by with_unfolding_all rfl)

set_option maxRecDepth 8000 in
/-- C2 counterexample: the guns_app variant extrapolates.  With
Military = {2001: 3}, Education = {2000: 4, 2001: 4}, Health = {2000: 1,
2001: 1}, `build_country_metrics` produces Military = 3 at year 2000 —
strictly before the military column's first observed year (2001). -/
theorem no_extrapolation_counterexample :
    ((build_country_metrics ⟨[((2001 : Year), (3 : ℚ))]⟩
        ⟨[(2000, 4), (2001, 4)]⟩ ⟨[(2000, 1), (2001, 1)]⟩).getD []).map
      (fun r => (r.year, r.military)) =
      [(2000, some 3), (2001, some 3)] := by with_unfolding_all rfl

/-- C2 (amended): in `build_metrics` (the `limit_area="inside"` variants of
the pipeline) no column value is ever produced at a year strictly before the
column's first observed year or strictly after its last, whatever the
interpolation flag; the guns_app `build_country_metrics` instead fills such
years by edge extension (see the counterexample). -/
theorem no_extrapolation_inside (mil edu hlth : RawSeries) (flag : Bool)
    (rows : List Row) (hb : build_metrics mil edu hlth flag = some rows)
    (i : Nat) (hi : i < (alignRows mil edu hlth).length) (c : Col)
    (hout :
      (∀ j, j < (alignRows mil edu hlth).length →
         colCellR ((alignRows mil edu hlth).getD j default) c ≠ none →
         ((alignRows mil edu hlth).getD i default).year <
           ((alignRows mil edu hlth).getD j default).year) ∨
      (∀ j, j < (alignRows mil edu hlth).length →
         colCellR ((alignRows mil edu hlth).getD j default) c ≠ none →
         ((alignRows mil edu hlth).getD j default).year <
           ((alignRows mil edu hlth).getD i default).year)) :
    colCellR (rows.getD i default) c = none := by
  set A := alignRows mil edu hlth with hA
  have hlen : A.length = (unionYears mil edu hlth).length :=
    length_alignRows mil edu hlth
  have hyear : ∀ j k, j ≤ k → k < A.length →
      (A.getD j default).year ≤ (A.getD k default).year := by
    intro j k hjk hk
    have hku : k < (unionYears mil edu hlth).length := hlen ▸ hk
    have hju : j < (unionYears mil edu hlth).length := lt_of_le_of_lt hjk hku
    rw [hA, alignRows_year_getD mil edu hlth j hju,
      alignRows_year_getD mil edu hlth k hku]
    exact sorted_getD_le (sorted_unionYears mil edu hlth) hjk hku 0
  have hpos : (∀ j, j ≤ i → colCellR (A.getD j default) c = none) ∨
      (∀ j, i ≤ j → j < A.length → colCellR (A.getD j default) c = none) := by
    rcases hout with hout | hout
    · left
      intro j hj
      by_contra hne
      have h1 := hout j (lt_of_le_of_lt hj hi) hne
      have h2 := hyear j i hj hi
      exact absurd h1 (not_lt.mpr h2)
    · right
      intro j hij hjl
      by_contra hne
      have h1 := hout j hjl hne
      have h2 := hyear i j hij hjl
      exact absurd h1 (not_lt.mpr h2)
  have hrows := build_metrics_some hb
  cases flag with
  | false =>
      simp only [Bool.false_eq_true, if_false] at hrows
      subst hrows
      rcases hpos with h | h
      · exact h i le_rfl
      · exact h i le_rfl hi
  | true =>
      simp only [if_true] at hrows
      subst hrows
      rw [interpolateRows_getD A i hi]
      cases c with
      | military =>
          have hp : (∀ j, j ≤ i → (A.getD j default).military = none) ∨
              (∀ j, i ≤ j → j < A.length → (A.getD j default).military = none) := by
            rcases hpos with h | h
            · exact Or.inl (fun j hj => Option.map_eq_none'.mp (h j hj))
            · exact Or.inr (fun j hij hjl => Option.map_eq_none'.mp (h j hij hjl))
          have hnone := interp_col_none mixQ A i hi (fun x => x.military) hp
          show ((interpCol mixQ (A.map fun x => x.military)).getD i none).map
            Rv.fin = none
          rw [hnone]
          rfl
      | education =>
          have hp : (∀ j, j ≤ i → (A.getD j default).education = none) ∨
              (∀ j, i ≤ j → j < A.length → (A.getD j default).education = none) := by
            rcases hpos with h | h
            · exact Or.inl (fun j hj => Option.map_eq_none'.mp (h j hj))
            · exact Or.inr (fun j hij hjl => Option.map_eq_none'.mp (h j hij hjl))
          have hnone := interp_col_none mixQ A i hi (fun x => x.education) hp
          show ((interpCol mixQ (A.map fun x => x.education)).getD i none).map
            Rv.fin = none
          rw [hnone]
          rfl
      | health =>
          have hp : (∀ j, j ≤ i → (A.getD j default).health = none) ∨
              (∀ j, i ≤ j → j < A.length → (A.getD j default).health = none) := by
            rcases hpos with h | h
            · exact Or.inl (fun j hj => Option.map_eq_none'.mp (h j hj))
            · exact Or.inr (fun j hij hjl => Option.map_eq_none'.mp (h j hij hjl))
          have hnone := interp_col_none mixQ A i hi (fun x => x.health) hp
          show ((interpCol mixQ (A.map fun x => x.health)).getD i none).map
            Rv.fin = none
          rw [hnone]
          rfl
      | butter =>
          have hp : (∀ j, j ≤ i → (A.getD j default).butter = none) ∨
              (∀ j, i ≤ j → j < A.length → (A.getD j default).butter = none) := by
            rcases hpos with h | h
            · exact Or.inl (fun j hj => Option.map_eq_none'.mp (h j hj))
            · exact Or.inr (fun j hij hjl => Option.map_eq_none'.mp (h j hij hjl))
          have hnone := interp_col_none mixQ A i hi (fun x => x.butter) hp
          show ((interpCol mixQ (A.map fun x => x.butter)).getD i none).map
            Rv.fin = none
          rw [hnone]
          rfl
      | ratio =>
          have hp : (∀ j, j ≤ i → (A.getD j default).ratio = none) ∨
              (∀ j, i ≤ j → j < A.length → (A.getD j default).ratio = none) := by
            rcases hpos with h | h
            · exact Or.inl (fun j hj => h j hj)
            · exact Or.inr (fun j hij hjl => h j hij hjl)
          exact interp_col_none mixR A i hi (fun x => x.ratio) hp

set_option maxRecDepth 8000 in
theorem no_extrapolation_inside_witness :
    colCellR (([⟨2000, none, some 1, some 1, some 2, none, Src.real⟩,
        ⟨2001, some 5, some 1, some 1, some 2, some (Rv.fin (5/2)),
          Src.real⟩] : List Row).getD 0 default) Col.military = none :=
  no_extrapolation_inside ⟨[(2001, 5)]⟩ ⟨[(2000, 1), (2001, 1)]⟩
    ⟨[(2000, 1), (2001, 1)]⟩ true
    [⟨2000, none, some 1, some 1, some 2, none, Src.real⟩,
     ⟨2001, some 5, some 1, some 1, some 2, some (Rv.fin (5/2)), Src.real⟩]
    (by with_unfolding_all rfl) 0 (by with_unfolding_all decide) Col.military
    (Or.inl (by with_unfolding_all decide))

theorem window_filter_inverted_empty_witness :
    filterWindow
        [{ year := 2000, military := some 1, education := some 1, health := some 1,
           butter := some 2, ratio := some (Rv.fin (1/2)), source := Src.real }]
        2005 2001 = [] :=
  window_filter_inverted_empty _ 2005 2001 (by decide)

set_option maxRecDepth 8000 in
/-- C4 counterexample: the terminal output for a selection containing a
country whose education series is completely empty is identical to the
output with that country deselected — the country is skipped silently
(`continue`); the pipeline produces no missing-countries report, refuting
the claim that it is reported rather than silently dropped. -/
theorem empty_series_counterexample :
    processCountries
        [⟨"B", ⟨[(2000, 1)]⟩, ⟨[]⟩, ⟨[(2000, 1)]⟩⟩,
         ⟨"A", ⟨[(2000, 1)]⟩, ⟨[(2000, 1)]⟩, ⟨[(2000, 1)]⟩⟩] true 2000 2001
        false [Metric.ratio] =
      processCountries [⟨"A", ⟨[(2000, 1)]⟩, ⟨[(2000, 1)]⟩, ⟨[(2000, 1)]⟩⟩]
        true 2000 2001 false [Metric.ratio] := by with_unfolding_all rfl

/-- C4 (amended): a selected country with any completely empty indicator
series is excluded entirely — it contributes zero LongRecords to the
terminal output for any flags, window and metric selection; however it is
dropped silently (the loop just continues on the `None` frame), with no
missing-countries report. -/
theorem empty_series_excluded (c : CountryInput) (flag : Bool) (lo hi : Year)
    (sor : Bool) (metrics : List Metric)
    (hempty : c.mil.isEmpty = true ∨ c.edu.isEmpty = true ∨
      c.hlth.isEmpty = true) :
    processCountry c flag lo hi sor metrics = [] := by
  have hcond : (c.mil.isEmpty || c.edu.isEmpty || c.hlth.isEmpty) = true := by
    rcases hempty with h | h | h <;> simp [h]
  have hbm : build_metrics c.mil c.edu c.hlth flag = none := by
    unfold build_metrics
    rw [if_pos hcond]
  unfold processCountry
  rw [hbm]

theorem empty_series_excluded_witness :
    processCountry ⟨"B", ⟨[(2000, 1)]⟩, ⟨[]⟩, ⟨[(2000, 1)]⟩⟩ true 2000 2001
      false [Metric.ratio] = [] :=
  empty_series_excluded _ true 2000 2001 false [Metric.ratio]
    (Or.inr (Or.inl rfl))

/-! ### Index preservation lemmas -/

theorem years_alignRows (mil edu hlth : RawSeries) :
    (alignRows mil edu hlth).map (fun r => r.year) = unionYears mil edu hlth := by
  unfold alignRows
  rw [List.map_map]
  have hcomp : ((fun r : Row => r.year) ∘ mkRow mil edu hlth) = fun y => y := by
    funext y
    rfl
  rw [hcomp]
  simp

theorem years_interpolateRows (A : List Row) :
    (interpolateRows A).map (fun r => r.year) = A.map (fun r => r.year) := by
  apply List.ext_getElem
  · simp [interpolateRows]
  · intro i h1 h2
    have hiA : i < A.length := by simpa using h2
    have h3 : i < (interpolateRows A).length := by
      rw [length_interpolateRows]
      exact hiA
    have hrow : (interpolateRows A)[i] = interpRowAt A i := by
      have hgd := interpolateRows_getD A i hiA
      rw [List.getD_eq_getElem _ _ h3] at hgd
      exact hgd
    simp only [List.getElem_map]
    rw [hrow, interpRowAt_year, List.getD_eq_getElem A default hiA]

/-- C9: the built frame's year index equals the sorted deduplicated union of
the three raw series' years, for either interpolation flag (interpolation
preserves the index), and the window filter preserves the
sorted-and-deduplicated invariant. -/
theorem index_union_sorted (mil edu hlth : RawSeries) (flag : Bool)
    (rows : List Row) (hb : build_metrics mil edu hlth flag = some rows)
    (lo hi : Year) :
    rows.map (fun r => r.year) = unionYears mil edu hlth ∧
    (rows.map (fun r => r.year)).Sorted (· < ·) ∧
    (∀ y, y ∈ rows.map (fun r => r.year) ↔
      (y ∈ mil.years ∨ y ∈ edu.years ∨ y ∈ hlth.years)) ∧
    ((filterWindow rows lo hi).map (fun r => r.year)).Sorted (· < ·) := by
  have hyu : rows.map (fun r => r.year) = unionYears mil edu hlth := by
    have hrows := build_metrics_some hb
    cases flag with
    | false =>
        simp only [Bool.false_eq_true, if_false] at hrows
        subst hrows
        exact years_alignRows mil edu hlth
    | true =>
        simp only [if_true] at hrows
        subst hrows
        rw [years_interpolateRows]
        exact years_alignRows mil edu hlth
  refine ⟨hyu, ?_, ?_, ?_⟩
  · rw [hyu]
    exact sorted_unionYears mil edu hlth
  · intro y
    rw [hyu]
    exact mem_unionYears mil edu hlth y
  · have hsub : List.Sublist ((filterWindow rows lo hi).map (fun r => r.year))
        (rows.map (fun r => r.year)) :=
      List.Sublist.map _ (List.filter_sublist rows)
    have hsorted : (rows.map (fun r => r.year)).Sorted (· < ·) := by
      rw [hyu]
      exact sorted_unionYears mil edu hlth
    exact List.Pairwise.sublist hsub hsorted

/-! ### Provenance tagging -/

theorem Col.exists_iff (p : Col → Prop) :
    (∃ c, p c) ↔ p Col.military ∨ p Col.education ∨ p Col.health ∨
      p Col.butter ∨ p Col.ratio := by
  constructor
  · rintro ⟨c, hc⟩
    cases c <;> tauto
  · rintro (h | h | h | h | h) <;> exact ⟨_, h⟩

theorem src_if_eq_interp_iff (b : Bool) :
    (if b then Src.interp else Src.real) = Src.interp ↔ b = true := by
  cases b <;> simp

theorem interpRowAt_source_iff (rows : List Row) (i : Nat) :
    (interpRowAt rows i).source = Src.interp ↔
      ∃ c : Col, colCellR (rows.getD i default) c = none ∧
        colCellR (interpRowAt rows i) c ≠ none := by
  rw [Col.exists_iff]
  rw [show (interpRowAt rows i).source = (if
      ((rows.getD i default).military.isNone &&
        ((interpCol mixQ (rows.map (fun x => x.military))).getD i none).isSome) ||
      ((rows.getD i default).education.isNone &&
        ((interpCol mixQ (rows.map (fun x => x.education))).getD i none).isSome) ||
      ((rows.getD i default).health.isNone &&
        ((interpCol mixQ (rows.map (fun x => x.health))).getD i none).isSome) ||
      ((rows.getD i default).butter.isNone &&
        ((interpCol mixQ (rows.map (fun x => x.butter))).getD i none).isSome) ||
      ((rows.getD i default).ratio.isNone &&
        ((interpCol mixR (rows.map (fun x => x.ratio))).getD i none).isSome)
    then Src.interp else Src.real) from rfl]
  rw [src_if_eq_interp_iff]
  simp only [colCellR, interpRowAt_military, interpRowAt_education,
    interpRowAt_health, interpRowAt_butter, interpRowAt_ratio,
    Bool.or_eq_true, Bool.and_eq_true, Option.isNone_iff_eq_none,
    Option.isSome_iff_ne_none, Option.map_eq_none', ne_eq]
  tauto

/-- C5 (amended): after interpolation, a row is tagged Synthesized
(`"Interpolated"`) exactly when interpolation produced at least one of its
five column values (absent before, present after); in particular every row
holding an interpolation-produced value is tagged Synthesized.  A row keeps
the tag Observed (`"Real"`) whenever nothing was filled at its year — even
if some of the three indicators were never observed there. -/
theorem provenance_iff (mil edu hlth : RawSeries) (rows : List Row)
    (hb : build_metrics mil edu hlth true = some rows) (i : Nat)
    (hi : i < (alignRows mil edu hlth).length) :
    (rows.getD i default).source = Src.interp ↔
      ∃ c : Col, colCellR ((alignRows mil edu hlth).getD i default) c = none ∧
        colCellR (rows.getD i default) c ≠ none := by
  have hrows := build_metrics_some hb
  simp only [if_true] at hrows
  subst hrows
  rw [interpolateRows_getD _ i hi]
  exact interpRowAt_source_iff (alignRows mil edu hlth) i

set_option maxRecDepth 8000 in
theorem provenance_iff_witness :
    (([⟨2000, some 2, some 4, some 1, some 5, some (Rv.fin (2/5)), Src.real⟩,
       ⟨2001, some (5/2), some (9/2), some 1, some (11/2),
         some (Rv.fin (9/20)), Src.interp⟩,
       ⟨2002, some 3, some 5, some 1, some 6, some (Rv.fin (1/2)),
         Src.real⟩] : List Row).getD 1 default).source = Src.interp ↔
      ∃ c : Col,
        colCellR ((alignRows ⟨[(2000, 2), (2002, 3)]⟩
          ⟨[(2000, 4), (2001, 9/2), (2002, 5)]⟩
          ⟨[(2000, 1), (2001, 1), (2002, 1)]⟩).getD 1 default) c = none ∧
        colCellR (([⟨2000, some 2, some 4, some 1, some 5, some (Rv.fin (2/5)),
            Src.real⟩,
          ⟨2001, some (5/2), some (9/2), some 1, some (11/2),
            some (Rv.fin (9/20)), Src.interp⟩,
          ⟨2002, some 3, some 5, some 1, some 6, some (Rv.fin (1/2)),
            Src.real⟩] : List Row).getD 1 default) c ≠ none :=
  provenance_iff ⟨[(2000, 2), (2002, 3)]⟩ ⟨[(2000, 4), (2001, 9/2), (2002, 5)]⟩
    ⟨[(2000, 1), (2001, 1), (2002, 1)]⟩
    [⟨2000, some 2, some 4, some 1, some 5, some (Rv.fin (2/5)), Src.real⟩,
     ⟨2001, some (5/2), some (9/2), some 1, some (11/2),
       some (Rv.fin (9/20)), Src.interp⟩,
     ⟨2002, some 3, some 5, some 1, some 6, some (Rv.fin (1/2)), Src.real⟩]
    (by with_unfolding_all rfl) 1 (by with_unfolding_all decide)

set_option maxRecDepth 8000 in
/-- C5 counterexample: with Military = {2000: 1, 2001: 1},
Education = {2001: 2}, Health = {2000: 1, 2001: 1} and interpolation
enabled, the row at year 2000 keeps the tag `"Real"` (Observed) although
the education indicator has no observation there — refuting "Observed
exactly when all three source indicators had a true observation". -/
theorem provenance_counterexample :
    ((build_metrics ⟨[((2000 : Year), (1 : ℚ)), (2001, 1)]⟩ ⟨[(2001, 2)]⟩
        ⟨[(2000, 1), (2001, 1)]⟩ true).getD []).map
      (fun r => (r.year, r.education, r.source)) =
      [(2000, none, Src.real), (2001, some 2, Src.real)] := by
  with_unfolding_all rfl

/-! ### Counting observed cells -/

theorem lookup_isSome (s : RawSeries) (y : Year) :
    (s.lookup y).isSome = true ↔ y ∈ s.years := by
  unfold RawSeries.lookup RawSeries.years
  rw [Option.isSome_map']
  rw [List.find?_isSome]
  constructor
  · rintro ⟨p, hp, hpy⟩
    exact List.mem_map.mpr ⟨p, hp, by simpa using hpy⟩
  · intro hy
    obtain ⟨p, hp, hpy⟩ := List.mem_map.mp hy
    exact ⟨p, hp, by simpa using hpy⟩

theorem filter_length_eq_of_nodup (l t : List Year) (hl : l.Nodup)
    (ht : t.Nodup) (hsub : ∀ y, y ∈ t → y ∈ l) (q : Year → Bool)
    (hq : ∀ y, y ∈ l → (q y = true ↔ y ∈ t)) :
    (l.filter q).length = t.length := by
  have h1 : (l.filter q).Nodup := hl.filter q
  have hmem : ∀ y, y ∈ l.filter q ↔ y ∈ t := by
    intro y
    rw [List.mem_filter]
    constructor
    · rintro ⟨hyl, hyq⟩
      exact (hq y hyl).mp hyq
    · intro hyt
      exact ⟨hsub y hyt, (hq y (hsub y hyt)).mpr hyt⟩
  have hp : (l.filter q).Perm t :=
    List.Subperm.antisymm
      (List.subperm_of_subset h1 (fun y hy => (hmem y).mp hy))
      (List.subperm_of_subset ht (fun y hy => (hmem y).mpr hy))
  exact hp.length_eq

/-- C7: with interpolation disabled the frame passes through the
interpolation stage unchanged (it is exactly the aligned frame, every
present indicator value is the raw observation and every tag is `Real`),
and each indicator column holds exactly as many present values as its raw
series has observations. -/
theorem no_interp_passthrough (mil edu hlth : RawSeries) (rows : List Row)
    (hb : build_metrics mil edu hlth false = some rows)
    (h1 : mil.years.Nodup) (h2 : edu.years.Nodup) (h3 : hlth.years.Nodup) :
    rows = alignRows mil edu hlth ∧
    (∀ r ∈ rows, r.military = mil.lookup r.year ∧
      r.education = edu.lookup r.year ∧ r.health = hlth.lookup r.year ∧
      r.source = Src.real) ∧
    rows.countP (fun r => r.military.isSome) = mil.obs.length ∧
    rows.countP (fun r => r.education.isSome) = edu.obs.length ∧
    rows.countP (fun r => r.health.isSome) = hlth.obs.length := by
  have hrows := build_metrics_some hb
  simp only [Bool.false_eq_true, if_false] at hrows
  subst hrows
  refine ⟨rfl, ?_, ?_, ?_, ?_⟩
  · intro r hr
    obtain ⟨y, _, rfl⟩ := List.mem_map.mp hr
    exact ⟨rfl, rfl, rfl, rfl⟩
  · unfold alignRows
    rw [List.countP_map, List.countP_eq_length_filter]
    have hlen : mil.years.length = mil.obs.length := by
      simp [RawSeries.years]
    rw [← hlen]
    apply filter_length_eq_of_nodup _ _ (nodup_unionYears mil edu hlth) h1
    · intro y hy
      exact (mem_unionYears mil edu hlth y).mpr (Or.inl hy)
    · intro y _
      exact lookup_isSome mil y
  · unfold alignRows
    rw [List.countP_map, List.countP_eq_length_filter]
    have hlen : edu.years.length = edu.obs.length := by
      simp [RawSeries.years]
    rw [← hlen]
    apply filter_length_eq_of_nodup _ _ (nodup_unionYears mil edu hlth) h2
    · intro y hy
      exact (mem_unionYears mil edu hlth y).mpr (Or.inr (Or.inl hy))
    · intro y _
      exact lookup_isSome edu y
  · unfold alignRows
    rw [List.countP_map, List.countP_eq_length_filter]
    have hlen : hlth.years.length = hlth.obs.length := by
      simp [RawSeries.years]
    rw [← hlen]
    apply filter_length_eq_of_nodup _ _ (nodup_unionYears mil edu hlth) h3
    · intro y hy
      exact (mem_unionYears mil edu hlth y).mpr (Or.inr (Or.inr hy))
    · intro y _
      exact lookup_isSome hlth y

set_option maxRecDepth 8000 in
theorem no_interp_passthrough_witness :
    ([⟨2000, some 2, none, some 1, none, none, Src.real⟩,
      ⟨2001, none, some 3, none, none, none, Src.real⟩] : List Row) =
        alignRows ⟨[(2000, 2)]⟩ ⟨[(2001, 3)]⟩ ⟨[(2000, 1)]⟩ ∧
    (∀ r ∈ ([⟨2000, some 2, none, some 1, none, none, Src.real⟩,
      ⟨2001, none, some 3, none, none, none, Src.real⟩] : List Row),
      r.military = RawSeries.lookup ⟨[(2000, 2)]⟩ r.year ∧
      r.education = RawSeries.lookup ⟨[(2001, 3)]⟩ r.year ∧
      r.health = RawSeries.lookup ⟨[(2000, 1)]⟩ r.year ∧
      r.source = Src.real) ∧
    (([⟨2000, some 2, none, some 1, none, none, Src.real⟩,
      ⟨2001, none, some 3, none, none, none, Src.real⟩] : List Row).countP
        (fun r => r.military.isSome)) = (RawSeries.obs ⟨[(2000, 2)]⟩).length ∧
    (([⟨2000, some 2, none, some 1, none, none, Src.real⟩,
      ⟨2001, none, some 3, none, none, none, Src.real⟩] : List Row).countP
        (fun r => r.education.isSome)) = (RawSeries.obs ⟨[(2001, 3)]⟩).length ∧
    (([⟨2000, some 2, none, some 1, none, none, Src.real⟩,
      ⟨2001, none, some 3, none, none, none, Src.real⟩] : List Row).countP
        (fun r => r.health.isSome)) = (RawSeries.obs ⟨[(2000, 1)]⟩).length :=
  no_interp_passthrough ⟨[(2000, 2)]⟩ ⟨[(2001, 3)]⟩ ⟨[(2000, 1)]⟩
    [⟨2000, some 2, none, some 1, none, none, Src.real⟩,
     ⟨2001, none, some 3, none, none, none, Src.real⟩]
    (by with_unfolding_all rfl) (by decide) (by decide) (by decide)

/-! ### Reshaper counting lemmas -/

theorem reshape_cons (name : String) (frows : List Row) (m0 : Metric)
    (rest : List Metric) :
    reshapeCountry name frows (m0 :: rest) =
      frows.map (fun r =>
        { year := r.year, country := name, metric := m0,
          value := metricValue r m0, source := r.source }) ++
      reshapeCountry name frows rest := by
  unfold reshapeCountry
  rw [List.flatMap_cons]

theorem reshape_metric_mem (name : String) (frows : List Row)
    (ms : List Metric) (rec : LongRecord)
    (hrec : rec ∈ reshapeCountry name frows ms) : rec.metric ∈ ms := by
  unfold reshapeCountry at hrec
  obtain ⟨m0, hm0, hrec2⟩ := List.mem_flatMap.mp hrec
  obtain ⟨r, _, rfl⟩ := List.mem_map.mp hrec2
  exact hm0

theorem countP_year_eq (frows : List Row) (y : Year)
    (hnd : (frows.map (fun r => r.year)).Nodup) :
    frows.countP (fun r => decide (r.year = y)) =
      if y ∈ frows.map (fun r => r.year) then 1 else 0 := by
  have hmap : frows.countP (fun r => decide (r.year = y)) =
      (frows.map (fun r => r.year)).countP (fun z => decide (z = y)) := by
    rw [List.countP_map]
    rfl
  rw [hmap]
  have hcong : (frows.map (fun r => r.year)).countP (fun z => decide (z = y)) =
      (frows.map (fun r => r.year)).countP (fun z => z == y) := by
    apply List.countP_congr
    intro z _
    by_cases h : z = y <;> simp [h]
  rw [hcong]
  by_cases hy : y ∈ frows.map (fun r => r.year)
  · rw [if_pos hy]
    exact List.count_eq_one_of_mem hnd hy
  · rw [if_neg hy]
    exact List.count_eq_zero_of_not_mem hy

theorem countP_reshape (name : String) (frows : List Row)
    (metrics : List Metric) (hmn : metrics.Nodup) (m : Metric)
    (hm : m ∈ metrics) (y : Year)
    (hnd : (frows.map (fun r => r.year)).Nodup) :
    (reshapeCountry name frows metrics).countP
        (fun rec => decide (rec.country = name ∧ rec.metric = m ∧
          rec.year = y)) =
      if y ∈ frows.map (fun r => r.year) then 1 else 0 := by
  induction metrics with
  | nil => cases hm
  | cons m0 rest ih =>
      rw [reshape_cons, List.countP_append]
      rcases List.mem_cons.mp hm with rfl | hm2
      · have hm0rest : m ∉ rest := (List.nodup_cons.mp hmn).1
        have hrest0 : (reshapeCountry name frows rest).countP
            (fun rec => decide (rec.country = name ∧ rec.metric = m ∧
              rec.year = y)) = 0 := by
          rw [List.countP_eq_zero]
          intro rec hrec hp
          obtain ⟨-, hmet, -⟩ := of_decide_eq_true hp
          exact hm0rest (hmet ▸ reshape_metric_mem name frows rest rec hrec)
        rw [hrest0, Nat.add_zero]
        have hhead : (frows.map (fun r =>
            ({ year := r.year, country := name, metric := m,
               value := metricValue r m, source := r.source } : LongRecord))).countP
            (fun rec => decide (rec.country = name ∧ rec.metric = m ∧
              rec.year = y)) =
            frows.countP (fun r => decide (r.year = y)) := by
          rw [List.countP_map]
          apply List.countP_congr
          intro r _
          by_cases h : r.year = y <;> simp [h]
        rw [hhead]
        exact countP_year_eq frows y hnd
      · have hne : m0 ≠ m := by
          intro he
          exact (List.nodup_cons.mp hmn).1 (he ▸ hm2)
        have hhead0 : (frows.map (fun r =>
            ({ year := r.year, country := name, metric := m0,
               value := metricValue r m0, source := r.source } : LongRecord))).countP
            (fun rec => decide (rec.country = name ∧ rec.metric = m ∧
              rec.year = y)) = 0 := by
          rw [List.countP_eq_zero]
          intro rec hrec hp
          obtain ⟨-, hmet, -⟩ := of_decide_eq_true hp
          obtain ⟨r, _, rfl⟩ := List.mem_map.mp hrec
          exact hne hmet
        rw [hhead0, Nat.zero_add]
        exact ih (List.nodup_cons.mp hmn).2 hm2

theorem years_filterWindow_mem (R : List Row) (lo hi y : Year) :
    y ∈ (filterWindow R lo hi).map (fun r => r.year) ↔
      ((lo ≤ y ∧ y ≤ hi) ∧ y ∈ R.map (fun r => r.year)) := by
  unfold filterWindow
  constructor
  · intro h
    obtain ⟨r, hr, rfl⟩ := List.mem_map.mp h
    obtain ⟨hrR, hp⟩ := List.mem_filter.mp hr
    rw [decide_eq_true_eq] at hp
    exact ⟨hp, List.mem_map.mpr ⟨r, hrR, rfl⟩⟩
  · rintro ⟨hw, hy⟩
    obtain ⟨r, hr, rfl⟩ := List.mem_map.mp hy
    exact List.mem_map.mpr ⟨r, List.mem_filter.mpr ⟨hr, by simpa using hw⟩, rfl⟩

theorem processCountry_country (c : CountryInput) (flag : Bool) (lo hi : Year)
    (sor : Bool) (metrics : List Metric) (rec : LongRecord)
    (hrec : rec ∈ processCountry c flag lo hi sor metrics) :
    rec.country = c.name := by
  unfold processCountry at hrec
  split at hrec
  · cases hrec
  · unfold reshapeCountry at hrec
    obtain ⟨m0, _, hrec2⟩ := List.mem_flatMap.mp hrec
    obtain ⟨r, _, rfl⟩ := List.mem_map.mp hrec2
    rfl

theorem countP_processCountry (c : CountryInput) (flag : Bool) (lo hi : Year)
    (metrics : List Metric) (hmn : metrics.Nodup) (m : Metric)
    (hm : m ∈ metrics) (y : Year)
    (hne1 : c.mil.isEmpty = false) (hne2 : c.edu.isEmpty = false)
    (hne3 : c.hlth.isEmpty = false) :
    (processCountry c flag lo hi false metrics).countP
        (fun rec => decide (rec.country = c.name ∧ rec.metric = m ∧
          rec.year = y)) =
      if (lo ≤ y ∧ y ≤ hi) ∧ y ∈ unionYears c.mil c.edu c.hlth then 1
      else 0 := by
  have hcond : ¬((c.mil.isEmpty || c.edu.isEmpty || c.hlth.isEmpty) = true) := by
    simp [hne1, hne2, hne3]
  have hbm : build_metrics c.mil c.edu c.hlth flag =
      some (if flag then interpolateRows (alignRows c.mil c.edu c.hlth)
        else alignRows c.mil c.edu c.hlth) := by
    unfold build_metrics
    rw [if_neg hcond]
    cases flag <;> rfl
  have hyears : (if flag then interpolateRows (alignRows c.mil c.edu c.hlth)
      else alignRows c.mil c.edu c.hlth).map (fun r => r.year) =
      unionYears c.mil c.edu c.hlth := by
    cases flag with
    | false =>
        simp only [Bool.false_eq_true, if_false]
        exact years_alignRows c.mil c.edu c.hlth
    | true =>
        simp only [if_true]
        rw [years_interpolateRows]
        exact years_alignRows c.mil c.edu c.hlth
  have hndR : ((if flag then interpolateRows (alignRows c.mil c.edu c.hlth)
      else alignRows c.mil c.edu c.hlth).map (fun r => r.year)).Nodup := by
    rw [hyears]
    exact nodup_unionYears c.mil c.edu c.hlth
  have hndf : ((filterWindow (if flag then
      interpolateRows (alignRows c.mil c.edu c.hlth)
      else alignRows c.mil c.edu c.hlth) lo hi).map (fun r => r.year)).Nodup := by
    have hsub : List.Sublist
        ((filterWindow (if flag then interpolateRows (alignRows c.mil c.edu c.hlth)
          else alignRows c.mil c.edu c.hlth) lo hi).map (fun r => r.year))
        ((if flag then interpolateRows (alignRows c.mil c.edu c.hlth)
          else alignRows c.mil c.edu c.hlth).map (fun r => r.year)) :=
      List.Sublist.map _ (List.filter_sublist _)
    exact List.Nodup.sublist hsub hndR
  unfold processCountry
  rw [hbm]
  show (reshapeCountry c.name
      (filterWindow (if flag then interpolateRows (alignRows c.mil c.edu c.hlth)
        else alignRows c.mil c.edu c.hlth) lo hi) metrics).countP
      (fun rec => decide (rec.country = c.name ∧ rec.metric = m ∧
        rec.year = y)) = _
  rw [countP_reshape c.name _ metrics hmn m hm y hndf]
  apply if_congr _ rfl rfl
  rw [years_filterWindow_mem, hyears]

/-- C6 (amended): for every selected country with full coverage and every
selected metric (metric list and country names duplicate-free, the
synthesized-row filter off), the terminal long dataset holds exactly one
LongRecord per (country, metric, year) with the year in the window and on
the country's frame index — including combinations whose value is absent
(NaN records are emitted too, see the counterexample) — and zero records
for years outside the window or off the index. -/
theorem reshape_bijection (cs : List CountryInput) (flag : Bool) (lo hi : Year)
    (metrics : List Metric) (hmn : metrics.Nodup)
    (hnames : (cs.map (fun c => c.name)).Nodup)
    (c : CountryInput) (hc : c ∈ cs)
    (hne1 : c.mil.isEmpty = false) (hne2 : c.edu.isEmpty = false)
    (hne3 : c.hlth.isEmpty = false)
    (m : Metric) (hm : m ∈ metrics) (y : Year) :
    (processCountries cs flag lo hi false metrics).countP
        (fun rec => decide (rec.country = c.name ∧ rec.metric = m ∧
          rec.year = y)) =
      if (lo ≤ y ∧ y ≤ hi) ∧ y ∈ unionYears c.mil c.edu c.hlth then 1
      else 0 := by
  induction cs with
  | nil => cases hc
  | cons c0 rest ih =>
      have hcons : processCountries (c0 :: rest) flag lo hi false metrics =
          processCountry c0 flag lo hi false metrics ++
          processCountries rest flag lo hi false metrics := by
        unfold processCountries
        rw [List.flatMap_cons]
      rw [hcons, List.countP_append]
      rcases List.mem_cons.mp hc with rfl | hc2
      · have hrest0 : (processCountries rest flag lo hi false metrics).countP
            (fun rec => decide (rec.country = c.name ∧ rec.metric = m ∧
              rec.year = y)) = 0 := by
          rw [List.countP_eq_zero]
          intro rec hrec hp
          obtain ⟨h1, -, -⟩ := of_decide_eq_true hp
          obtain ⟨c2, hc2m, hrec2⟩ := List.mem_flatMap.mp hrec
          have h2 : rec.country = c2.name :=
            processCountry_country c2 flag lo hi false metrics rec hrec2
          have hcne : c2.name ≠ c.name := by
            intro he
            exact (List.nodup_cons.mp hnames).1
              (List.mem_map.mpr ⟨c2, hc2m, he⟩)
          exact hcne (h2.symm.trans h1)
        rw [hrest0, Nat.add_zero]
        exact countP_processCountry c flag lo hi metrics hmn m hm y
          hne1 hne2 hne3
      · have hhead0 : (processCountry c0 flag lo hi false metrics).countP
            (fun rec => decide (rec.country = c.name ∧ rec.metric = m ∧
              rec.year = y)) = 0 := by
          rw [List.countP_eq_zero]
          intro rec hrec hp
          obtain ⟨h1, -, -⟩ := of_decide_eq_true hp
          have h2 : rec.country = c0.name :=
            processCountry_country c0 flag lo hi false metrics rec hrec
          have hcne : c0.name ≠ c.name := by
            intro he
            exact (List.nodup_cons.mp hnames).1
              (List.mem_map.mpr ⟨c, hc2, he.symm⟩)
          exact hcne (h2.symm.trans h1)
        rw [hhead0, Nat.zero_add]
        exact ih (List.nodup_cons.mp hnames).2 hc2

set_option maxRecDepth 8000 in
theorem reshape_bijection_witness :
    (processCountries
        [⟨"A", ⟨[(2000, 1), (2001, 1)]⟩, ⟨[(2001, 2)]⟩, ⟨[(2001, 1)]⟩⟩]
        false 2000 2001 false [Metric.ratio]).countP
        (fun rec => decide (rec.country = "A" ∧ rec.metric = Metric.ratio ∧
          rec.year = 2000)) =
      if ((2000 : Year) ≤ 2000 ∧ (2000 : Year) ≤ 2001) ∧
          (2000 : Year) ∈ unionYears ⟨[(2000, 1), (2001, 1)]⟩ ⟨[(2001, 2)]⟩
            ⟨[(2001, 1)]⟩ then 1
      else 0 :=
  reshape_bijection
    [⟨"A", ⟨[(2000, 1), (2001, 1)]⟩, ⟨[(2001, 2)]⟩, ⟨[(2001, 1)]⟩⟩]
    false 2000 2001 [Metric.ratio] (by decide) (by decide) _
    (List.mem_cons_self _ _) rfl rfl rfl Metric.ratio
    (List.mem_cons_self _ _) 2000

set_option maxRecDepth 8000 in
/-- C6 counterexample: with Military = {2000: 1, 2001: 1},
Education = {2001: 2}, Health = {2001: 1} and metric Ratio, the terminal
dataset contains a record for (A, Ratio, 2000) although the Ratio value at
2000 is undefined (NaN) — refuting "zero records for combinations with no
defined value". -/
theorem reshape_bijection_counterexample :
    processCountries
        [⟨"A", ⟨[((2000 : Year), (1 : ℚ)), (2001, 1)]⟩, ⟨[(2001, 2)]⟩,
          ⟨[(2001, 1)]⟩⟩] false 2000 2001 false [Metric.ratio] =
      [⟨2000, "A", Metric.ratio, none, Src.real⟩,
       ⟨2001, "A", Metric.ratio, some (Rv.fin (1 / 3)), Src.real⟩] := by
  with_unfolding_all rfl

set_option maxRecDepth 8000 in
theorem index_union_sorted_witness :
    (([⟨2000, some 2, none, some 1, none, none, Src.real⟩,
       ⟨2001, none, some 3, none, none, none, Src.real⟩] : List Row).map
        (fun r => r.year) =
      unionYears ⟨[(2000, 2)]⟩ ⟨[(2001, 3)]⟩ ⟨[(2000, 1)]⟩) ∧
    ((([⟨2000, some 2, none, some 1, none, none, Src.real⟩,
       ⟨2001, none, some 3, none, none, none, Src.real⟩] : List Row).map
        (fun r => r.year)).Sorted (· < ·)) ∧
    (∀ y, y ∈ ([⟨2000, some 2, none, some 1, none, none, Src.real⟩,
       ⟨2001, none, some 3, none, none, none, Src.real⟩] : List Row).map
        (fun r => r.year) ↔
      (y ∈ RawSeries.years ⟨[(2000, 2)]⟩ ∨ y ∈ RawSeries.years ⟨[(2001, 3)]⟩ ∨
        y ∈ RawSeries.years ⟨[(2000, 1)]⟩)) ∧
    ((filterWindow
        [⟨2000, some 2, none, some 1, none, none, Src.real⟩,
         ⟨2001, none, some 3, none, none, none, Src.real⟩] 2000 2000).map
      (fun r => r.year)).Sorted (· < ·) :=
  index_union_sorted ⟨[(2000, 2)]⟩ ⟨[(2001, 3)]⟩ ⟨[(2000, 1)]⟩ false
    [⟨2000, some 2, none, some 1, none, none, Src.real⟩,
     ⟨2001, none, some 3, none, none, none, Src.real⟩]
    (by with_unfolding_all rfl) 2000 2000

end GB
